import Mathlib

/-!
A shallow embedding of the core of `src/sitemap_generator.py` (an XML-sitemap
generator), together with theorems settling the frozen specification claims.

The Python source works over strings, Python `dict`s and `list`s; here
strings stay `String`, dictionaries become association lists preserving
insertion order, and Python sets used only for membership tests become
`List String` with `∈`.  File and network I/O is elided: every parser takes
the already-read header row and data rows, and every writer returns the
payload it would have written.  Behaviour of the Python standard library
(`urllib.parse.urlparse`, `re`, `xml.dom.minidom` serialization) is modelled
by explicit Lean definitions; each such definition carries a doc comment
naming the library function it models.
-/

namespace SitemapGen

/-! ## Small string helpers (models of Python `str` methods, ASCII fragment) -/

/-- Model of Python `s.lower()` (ASCII fragment of `str.lower`). -/
def pyLower (s : String) : String := String.mk (s.data.map Char.toLower)

/-- Model of Python `s.upper()` (ASCII fragment of `str.upper`). -/
def pyUpper (s : String) : String := String.mk (s.data.map Char.toUpper)

/-- Model of Python `s.strip()`: drop leading and trailing whitespace. -/
def pyStrip (s : String) : String :=
  String.mk
    (((s.data.dropWhile Char.isWhitespace).reverse.dropWhile Char.isWhitespace).reverse)

/-- Model of Python `s.startswith(pre)`. -/
def pyStartswith (s pre : String) : Bool := pre.data.isPrefixOf s.data

/-- Model of Python `s.endswith(suf)`. -/
def pyEndswith (s suf : String) : Bool := suf.data.isSuffixOf s.data

/-- Model of Python `s.rstrip('/')`: drop every trailing `'/'`. -/
def rstripSlash (s : String) : String :=
  String.mk ((s.data.reverse.dropWhile (fun c => c = '/')).reverse)

/-- Model of Python `s.replace(' ', '_')`. -/
def spacesToUnderscores (s : String) : String :=
  String.mk (s.data.map (fun c => if c = ' ' then '_' else c))

/-- Is `needle` an infix of the character list? -/
def infixOfB (needle : List Char) : List Char → Bool
  | [] => needle.isPrefixOf []
  | c :: cs => needle.isPrefixOf (c :: cs) || infixOfB needle cs

/-- Model of Python `sub in s` (substring containment). -/
def strContains (s sub : String) : Bool :=
  infixOfB sub.data s.data

/-- Model of Python `s.isupper()` restricted to ASCII: at least one cased
character and no lowercase character. -/
def pyIsUpper (s : String) : Bool :=
  s.data.any (fun c => c.isAlpha) && s.data.all (fun c => !c.isLower)

/-- Model of Python `field.lower().replace(' ', '').replace('_', '')` used by
the column-detection heuristics. -/
def normalizeHeader (s : String) : String :=
  String.mk (((pyLower s).data.filter (fun c => c ≠ ' ')).filter (fun c => c ≠ '_'))

/-! ## Model of `urllib.parse.urlparse` (src calls it for every URL) -/

/-- Result record of `urllib.parse.urlparse`. -/
structure UrlParts where
  scheme : String
  netloc : String
  path : String
  params : String
  query : String
  fragment : String
deriving Repr, DecidableEq

/-- Characters allowed in a URL scheme (`scheme_chars` in `urllib.parse`). -/
def isSchemeChar (c : Char) : Bool :=
  c.isAlpha || c.isDigit || c = '+' || c = '-' || c = '.'

/-- Split a character list at the first occurrence of `sep`; `none` when
`sep` does not occur. -/
def splitFirst (sep : Char) : List Char → Option (List Char × List Char)
  | [] => none
  | c :: cs =>
    if c = sep then some ([], cs)
    else match splitFirst sep cs with
      | some (a, b) => some (c :: a, b)
      | none => none

/-- Split a character list at the last occurrence of `sep`; `none` when
`sep` does not occur. -/
def splitLast (sep : Char) (cs : List Char) : Option (List Char × List Char) :=
  match splitFirst sep cs.reverse with
  | some (a, b) => some (b.reverse, a.reverse)
  | none => none

/-- Model of `urllib.parse._splitparams`: split `;params` off the last path
segment (only called when `';'` occurs in the path). -/
def splitParams (cs : List Char) : List Char × List Char :=
  match splitLast '/' cs with
  | some (before, after) =>
    match splitFirst ';' after with
    | some (a, b) => (before ++ '/' :: a, b)
    | none => (cs, [])
  | none =>
    match splitFirst ';' cs with
    | some (a, b) => (a, b)
    | none => (cs, [])

/-- Model of `urllib.parse.urlparse` for `str` input with default arguments:
scheme is recognised and lowercased first, then the `//netloc` part (up to
the first of `/?#`), then the fragment after the first `#`, then the query
after the first `?`, and finally `;params` is split off the last path
segment. -/
def pyUrlparse (url : String) : UrlParts :=
  let cs := url.data
  let (scheme, rest) :=
    match splitFirst ':' cs with
    | some (pre, suf) =>
      if pre ≠ [] && (match pre.head? with | some c => c.isAlpha | none => false)
          && pre.all isSchemeChar then
        (String.mk (pre.map Char.toLower), suf)
      else ("", cs)
    | none => ("", cs)
  let (netloc, rest) :=
    if rest.take 2 = ['/', '/'] then
      ((rest.drop 2).takeWhile (fun c => c ≠ '/' && c ≠ '?' && c ≠ '#'),
       (rest.drop 2).dropWhile (fun c => c ≠ '/' && c ≠ '?' && c ≠ '#'))
    else ([], rest)
  let (rest, fragment) :=
    match splitFirst '#' rest with
    | some (a, b) => (a, b)
    | none => (rest, [])
  let (rest, query) :=
    match splitFirst '?' rest with
    | some (a, b) => (a, b)
    | none => (rest, [])
  let (path, params) :=
    if rest.contains ';' then splitParams rest else (rest, [])
  { scheme := scheme
    netloc := String.mk netloc
    path := String.mk path
    params := String.mk params
    query := String.mk query
    fragment := String.mk fragment }

/-! ## `is_paginated_url` (src lines 66-70)

The source compiles `re.compile(r'/Page-\d+', re.IGNORECASE)` and calls
`PATTERN.search(url)` on the *entire URL string*.  A match needs a literal
`'/'`, the four letters `page` case-insensitively, a literal `'-'` and at
least one digit (`\d` is modelled as the ASCII digits `0`-`9`). -/

/-- Does `/Page-<digit>` (case-insensitive) match at the head of the
character list?  One digit suffices for `re.search` with `\d+`. -/
def pagMatchAt : List Char → Bool
  | a :: c1 :: c2 :: c3 :: c4 :: b :: d :: _ =>
    a = '/' && c1.toLower = 'p' && c2.toLower = 'a' && c3.toLower = 'g' &&
      c4.toLower = 'e' && b = '-' && d.isDigit
  | _ => false

/-- Model of `re.search`: try `pagMatchAt` at every suffix. -/
def searchPag : List Char → Bool
  | [] => false
  | c :: cs => pagMatchAt (c :: cs) || searchPag cs

/-- Embedding of `is_paginated_url` (src line 68): the regex is searched over
the whole URL string, not just its path. -/
def is_paginated_url (url : String) : Bool :=
  searchPag url.data

/-! ## XML serialization model (src `estimate_xml_size`, lines 337-345, and
`save_sitemap`, lines 432-449)

The source builds an ElementTree `urlset` element with one `url`/`loc` child
per entry, serialises with `tostring(urlset, 'utf-8')`, re-parses with
`minidom.parseString` and pretty-prints with `toprettyxml(indent="  ")`.
For a `urlset` whose `loc` texts are XML-safe, the resulting string is a
fixed header and footer around one fixed-shape block per entry, with the
text escaped by `minidom`'s `_write_data` (the chained replacements
`& → &amp;`, `< → &lt;`, `" → &quot;`, `> → &gt;`, which amount to a
per-character map). -/

/-- Per-character effect of minidom text escaping. -/
def escChar (c : Char) : List Char :=
  if c = '&' then ['&', 'a', 'm', 'p', ';']
  else if c = '<' then ['&', 'l', 't', ';']
  else if c = '"' then ['&', 'q', 'u', 'o', 't', ';']
  else if c = '>' then ['&', 'g', 't', ';']
  else [c]

/-- minidom text escaping of a whole string. -/
def minidomEscape (s : String) : List Char :=
  s.data.flatMap escChar

/-- UTF-8 byte length of a character list (`len(s.encode('utf-8'))`). -/
def byteLen (cs : List Char) : Nat :=
  (cs.map Char.utf8Size).sum

/-- The pretty-printed block one `url` entry contributes:
`"  <url>\n    <loc>" ++ escaped text ++ "</loc>\n  </url>\n"`. -/
def urlBlock (locText : String) : List Char :=
  "  <url>\n    <loc>".data ++ minidomEscape locText ++ "</loc>\n  </url>\n".data

/-- The pretty-printed `urlset` document for the given `loc` texts
(empty `urlset` collapses to a self-closing tag, as minidom prints it). -/
def prettyUrlset (locs : List String) : List Char :=
  if locs.isEmpty then
    "<?xml version=\"1.0\" ?>\n<urlset xmlns=\"http://www.sitemaps.org/schemas/sitemap/0.9\"/>\n".data
  else
    "<?xml version=\"1.0\" ?>\n<urlset xmlns=\"http://www.sitemaps.org/schemas/sitemap/0.9\">\n".data
      ++ (locs.map urlBlock).flatten
      ++ "</urlset>\n".data

/-- Embedding of `estimate_xml_size` (src lines 337-345): the UTF-8 byte
length of the pretty-printed document.  The Python `except: return 0` branch
is unreachable for XML-safe texts and is not modelled. -/
def estimate_xml_size (locs : List String) : Nat :=
  byteLen (prettyUrlset locs)

/-! ## `generate_sitemap` (src lines 347-398) -/

/-- Sitemap limits (src lines 62-63). -/
def MAX_URLS_PER_SITEMAP : Nat := 50000

/-- `MAX_SITEMAP_SIZE_MB * 1024 * 1024` (src line 363). -/
def maxSizeBytes : Nat := 50 * 1024 * 1024

/-- The value `generate_sitemap` returns: the `loc` texts of the built
`urlset`, the `url_list` of `(url, locale_key)` pairs, and `url_count`. -/
structure ChunkOut where
  locs : List String
  url_list : List (String × String)
  url_count : Nat
deriving Repr, DecidableEq

/-- The `for full_url, path in pages:` loop of `generate_sitemap`
(src lines 376-396).  State: `locs`/`url_list`/`url_count` accumulated so
far and the `added_urls` set (a list, used only through `∈`).  A duplicate
is skipped; the loop breaks once `url_count` reaches the URL cap; after an
append that makes `url_count` a multiple of 100 the document size is
estimated and the loop breaks when it exceeds the byte cap. -/
def sitemapLoop (locale_key : String) :
    List (String × String) → List String → List (String × String) → Nat →
    List String → ChunkOut
  | [], locs, ul, count, _ => ⟨locs, ul, count⟩
  | (full_url, _) :: rest, locs, ul, count, added =>
    if full_url ∈ added then
      sitemapLoop locale_key rest locs ul count added
    else if MAX_URLS_PER_SITEMAP ≤ count then
      ⟨locs, ul, count⟩
    else
      let locs' := locs ++ [full_url]
      let ul' := ul ++ [(full_url, locale_key)]
      let count' := count + 1
      if count' % 100 = 0 && maxSizeBytes < estimate_xml_size locs' then
        ⟨locs', ul', count'⟩
      else
        sitemapLoop locale_key rest locs' ul' count' (added ++ [full_url])

/-- Embedding of `generate_sitemap` (src lines 347-398).  The homepage is
pre-added exactly when `include_homepage and homepage_url and
sitemap_index == 1` is truthy (`None` and the empty string are falsy).
When it is emitted, its `loc` text is the homepage normalized to end with
`/`, while the `url_list` entry and the dedup set always use
`homepage_url + '/'` exactly as in the source. -/
def generate_sitemap (homepage_url : Option String) (pages : List (String × String))
    (locale_key : String) (sitemap_index : Nat) (include_homepage : Bool) : ChunkOut :=
  match homepage_url with
  | some hp =>
    if include_homepage && !hp.isEmpty && sitemap_index = 1 then
      sitemapLoop locale_key pages
        [if pyEndswith hp "/" then hp else hp ++ "/"]
        [(hp ++ "/", locale_key)] 1 [hp ++ "/"]
    else sitemapLoop locale_key pages [] [] 0 []
  | none => sitemapLoop locale_key pages [] [] 0 []

/-! ## `parse_homepage_csv` (src lines 86-165)

The parser is modelled on the already-read header (`fieldnames`, after the
optional `sep=` line was skipped) and the data rows, each row an association
list as produced by `csv.DictReader`.  The Python function signals failure
by raising `ValueError`; the spec's error taxonomy sorts those into
ConfigurationError (separator line, missing required columns) and
ValidationError (empty registry), so the embedding returns an explicit
error type carrying the same distinctions. -/

/-- One row of a CSV file as `csv.DictReader` yields it. -/
abbrev Row := List (String × String)

/-- Model of `row.get(col, dflt)`. -/
def rowGet (row : Row) (col : String) (dflt : String) : String :=
  match row.find? (fun kv => kv.1 = col) with
  | some kv => kv.2
  | none => dflt

/-- The per-homepage record stored in the registry (src lines 129-135 and
142-149).  In Country+Language mode the Python dict has no `section` key and
`homepage.get('section', '')` yields `''`; that is modelled by storing `""`. -/
structure Homepage where
  url : String
  is_default : Bool
  country : String
  language : String
  locale : String
  «section» : String
deriving Repr, DecidableEq

/-- The homepage registry: insertion-ordered, unique keys. -/
abbrev Registry := List (String × Homepage)

/-- Model of `homepages[key] = value` on a Python dict: an existing key keeps
its position and gets the new value; a new key is appended. -/
def registryPut : Registry → String → Homepage → Registry
  | [], k, v => [(k, v)]
  | (k', v') :: rest, k, v =>
    if k' = k then (k, v) :: rest else (k', v') :: registryPut rest k v

/-- Errors of `parse_homepage_csv`, sorted by the spec's taxonomy:
`sepNotSkipped` and `missingRequiredColumns` are ConfigurationErrors
(src lines 103 and 113), `noValidHomepages` is the ValidationError
(src line 158, message "No valid homepages found in CSV"). -/
inductive HomepageCsvError
  | sepNotSkipped
  | missingRequiredColumns (fieldnames : List String)
  | noValidHomepages
deriving Repr, DecidableEq

/-- Which errors the spec's taxonomy calls ConfigurationError. -/
def isConfigurationError : HomepageCsvError → Bool
  | .sepNotSkipped => true
  | .missingRequiredColumns _ => true
  | .noValidHomepages => false

/-- `'sep=' in str(fieldnames[0]).lower()` (src lines 101 and 246). -/
def sepInFirstField (fieldnames : List String) : Bool :=
  match fieldnames with
  | [] => false
  | f :: _ => strContains (pyLower f) "sep="

/-- One iteration of the row loop of `parse_homepage_csv` (src lines
115-155).  Rows with an empty homepage URL (after `rstrip('/')` the check is
on the stripped value) are skipped.  When neither mode's branch applies
(header had `Country` without `Language` and no `Section`), the Python body
falls through to a log f-string reading the never-assigned variable `key`,
raising `NameError`, which the per-row `except` swallows: the row is skipped. -/
def processHomepageRow (hasCL hasSection : Bool) (reg : Registry) (row : Row) : Registry :=
  let url := rstripSlash (rowGet row "Homepage" "")
  if url.isEmpty then reg
  else if hasCL then
    let country := pyLower (rowGet row "Country" "")
    let language := pyLower (rowGet row "Language" "")
    let locale := pyLower (rowGet row "Locale" "")
    let is_default := rowGet row "Language Default" "N" = "Y"
    let key := if is_default then language else language ++ "-" ++ country
    registryPut reg key ⟨url, is_default, country, language, locale, ""⟩
  else if hasSection then
    let «section» := spacesToUnderscores (rowGet row "Section" "")
    let locale := pyUpper (rowGet row "Locale" "")
    let key := if locale.isEmpty then pyLower «section» else pyLower locale
    registryPut reg key ⟨url, false, locale, locale, locale, «section»⟩
  else reg

/-- Embedding of `parse_homepage_csv` (src lines 86-165). -/
def parse_homepage_csv (fieldnames : List String) (rows : List Row) :
    Except HomepageCsvError Registry :=
  if sepInFirstField fieldnames then .error .sepNotSkipped
  else
    let hasCountry := "Country" ∈ fieldnames
    let hasLanguage := "Language" ∈ fieldnames
    let hasSection := "Section" ∈ fieldnames
    if !hasCountry && !hasSection then .error (.missingRequiredColumns fieldnames)
    else
      let reg := rows.foldl (processHomepageRow (hasCountry && hasLanguage) hasSection) []
      if reg.isEmpty then .error .noValidHomepages else .ok reg

/-! ## Column detection and `parse_internal_csv` (src lines 167-335) -/

/-- Shared shape of `find_url_column` and `find_indexability_column`
(src lines 167-187): scan headers in order, return the first whose
normalized form contains one of the keywords. -/
def findColumn (keywords : List String) : List String → Option String
  | [] => none
  | f :: rest =>
    if keywords.any (fun kw => strContains (normalizeHeader f) kw) then some f
    else findColumn keywords rest

/-- Embedding of `find_url_column` (src lines 167-176). -/
def find_url_column (fieldnames : List String) : Option String :=
  findColumn ["url", "address", "link", "href", "page"] fieldnames

/-- Embedding of `find_indexability_column` (src lines 178-187). -/
def find_indexability_column (fieldnames : List String) : Option String :=
  findColumn ["indexability", "indexable", "index", "status", "indexation"] fieldnames

/-- The part-cleaning loop of `extract_url_pattern` (src lines 200-211):
drop two-letter all-uppercase segments; drop a two-letter segment together
with its successor when that successor has length at most 5 (except at the
last position). -/
def cleanParts : List String → List String
  | [] => []
  | [p] => if p.length = 2 ∧ pyIsUpper p then [] else [p]
  | p :: q :: rest =>
    if p.length = 2 ∧ pyIsUpper p then cleanParts (q :: rest)
    else if p.length = 2 ∧ q.length ≤ 5 then cleanParts rest
    else p :: cleanParts (q :: rest)

/-- Embedding of `extract_url_pattern` (src lines 189-222); the
`base_domain` parameter is unused in the source as well. -/
def extract_url_pattern (url : String) (_base_domain : String) : String :=
  let parsed := pyUrlparse url
  let parts := (parsed.path.split (fun c => c = '/')).filter (fun p => !p.isEmpty)
  let cleaned := cleanParts parts
  let cleaned_path := if cleaned.isEmpty then "/" else "/" ++ String.intercalate "/" cleaned
  if parsed.query.isEmpty then cleaned_path else cleaned_path ++ "?" ++ parsed.query

/-- The homepage-matching loop of `parse_internal_csv` (src lines 299-306):
first registry entry whose homepage path (trailing slashes stripped) is a
prefix of the URL's path. -/
def matchHomepage (homepages : Registry) (path : String) : Option String :=
  match homepages with
  | [] => none
  | (key, hd) :: rest =>
    if pyStartswith path (rstripSlash (pyUrlparse hd.url).path) then some key
    else matchHomepage rest path

/-- Locale assignment for one parsed URL (src lines 299-311): the matched
homepage key, or the lowercased `scheme://netloc` when nothing matched. -/
def assignLocale (homepages : Registry) (parsed : UrlParts) : String :=
  match matchHomepage homepages parsed.path with
  | some key => key
  | none => pyLower (parsed.scheme ++ "://" ++ parsed.netloc)

/-- The indexability exclusion rule (src lines 276-288), applied to the
stripped cell value. -/
def isExcludedIndexability (v : String) : Bool :=
  let lo := pyLower v
  (lo = "false" || lo = "no" || lo = "n" || lo = "0" || lo = "") ||
    strContains lo "non" || strContains lo "not" ||
    strContains lo "no index" || strContains lo "noindex" ||
    (strContains lo "index" &&
      (strContains lo "non" || strContains lo "not" || strContains lo "no "))

/-- Locale buckets: key to insertion-ordered `(url, path_pattern)` entries. -/
abbrev Buckets := List (String × List (String × String))

/-- Model of `pages[key].append(e)` on a `defaultdict(list)`. -/
def bucketAdd : Buckets → String → (String × String) → Buckets
  | [], k, e => [(k, [e])]
  | (k', es) :: rest, k, e =>
    if k' = k then (k', es ++ [e]) :: rest else (k', es) :: bucketAdd rest k e

/-- Model of `internal_pages.get(lang_region, [])`. -/
def bucketGet (bs : Buckets) (k : String) : List (String × String) :=
  match bs.find? (fun kv => kv.1 = k) with
  | some kv => kv.2
  | none => []

/-- The shared, externally polled progress record (src line 59). -/
structure RunStatus where
  status : String
  percentage : Nat
  error : Option String
deriving Repr, DecidableEq

/-- Errors of `parse_internal_csv` that abort the run (both
ConfigurationErrors in the spec's taxonomy): the unresolved `sep=` line
(src line 248) and a missing URL column (src line 254). -/
inductive InternalCsvError
  | sepNotSkipped
  | noUrlColumn (fieldnames : List String)
deriving Repr, DecidableEq

/-- One iteration of the row loop of `parse_internal_csv`
(src lines 266-323): skip empty URLs, excluded indexability values and
out-of-domain URLs; otherwise append the entry to its locale bucket and
count it as indexable. -/
def processInternalRow (addressCol : String) (idxCol : Option String)
    (base_domains : List String) (homepages : Registry)
    (acc : Buckets × Nat) (row : Row) : Buckets × Nat :=
  let url := pyStrip (rowGet row addressCol "")
  if url.isEmpty then acc
  else
    let excluded :=
      match idxCol with
      | some c => isExcludedIndexability (pyStrip (rowGet row c ""))
      | none => false
    if excluded then acc
    else
      let parsed := pyUrlparse url
      let base_url := parsed.scheme ++ "://" ++ parsed.netloc
      if base_url ∉ base_domains then acc
      else
        let key := assignLocale homepages parsed
        let path_pattern := extract_url_pattern url base_url
        (bucketAdd acc.1 key (url, path_pattern), acc.2 + 1)

/-- Result of `parse_internal_csv`: the locale buckets, the number of
indexable URLs, and the progress record after the parse (the zero-indexable
case calls `log_error`, which sets `progress["error"]` — and returns
normally, src lines 328-331). -/
structure ParseInternalOut where
  pages : Buckets
  indexable_count : Nat
  progress : RunStatus
deriving Repr, DecidableEq

/-- The message `log_error` stores when no indexable URL survived
(src line 329). -/
def noIndexableMsg : String :=
  "No indexable pages found! Check your CSV format and indexability column."

/-- Embedding of `parse_internal_csv` (src lines 224-335). -/
def parse_internal_csv (fieldnames : List String) (rows : List Row)
    (homepages : Registry) (prog : RunStatus) :
    Except InternalCsvError ParseInternalOut :=
  let base_domains := homepages.map (fun kv =>
    let p := pyUrlparse kv.2.url
    p.scheme ++ "://" ++ p.netloc)
  if sepInFirstField fieldnames then .error .sepNotSkipped
  else
    match find_url_column fieldnames with
    | none => .error (.noUrlColumn fieldnames)
    | some addressCol =>
      let idxCol := find_indexability_column fieldnames
      let acc :=
        rows.foldl (processInternalRow addressCol idxCol base_domains homepages) ([], 0)
      let prog' := if acc.2 = 0 then { prog with error := some noIndexableMsg } else prog
      .ok ⟨acc.1, acc.2, prog'⟩

/-! ## The chunking loops of the `index` route (src lines 514-690) -/

/-- A locale skipped because its bucket was empty (src lines 534-539). -/
structure SkippedLocale where
  locale : String
  homepage : String
  «section» : String
  country : String
deriving Repr, DecidableEq

/-- The regular-chunk `while True` loop for one locale (src lines 560-593):
generate a sitemap from the remaining pages, then drop `url_count - 1`
entries for chunk 1 when `url_count > 1` (accounting for the pre-added
homepage), else `url_count` entries; stop when nothing remains or nothing
was added, or after the 100-chunk safety cap (`if sitemap_number > 100:
break` after the increment).  The cap is encoded structurally by `fuel`,
kept equal to `100 - n`, so the last chunk the loop can emit is number 100,
exactly as in the source. -/
def regularLoopAux (hp locale_key : String) (fuel : Nat)
    (remaining : List (String × String)) (n : Nat) : List ChunkOut :=
  let r := generate_sitemap (some hp) remaining locale_key n true
  let rem' :=
    if n = 1 ∧ 1 < r.url_count then remaining.drop (r.url_count - 1)
    else remaining.drop r.url_count
  if rem'.isEmpty || r.url_count = 0 then [r]
  else
    match fuel with
    | 0 => [r]
    | fuel' + 1 => r :: regularLoopAux hp locale_key fuel' rem' (n + 1)

/-- The regular chunk sequence of one locale (entered at chunk number 1). -/
def regularChunks (hp locale_key : String) (regular_pages : List (String × String)) :
    List ChunkOut :=
  regularLoopAux hp locale_key 99 regular_pages 1

/-- The paginated-chunk loop for one locale (src lines 604-634): same shape,
no homepage and plain `remaining[url_count:]` slicing. -/
def paginatedLoopAux (pagKey : String) (fuel : Nat)
    (remaining : List (String × String)) (n : Nat) : List ChunkOut :=
  let r := generate_sitemap none remaining pagKey n false
  let rem' := remaining.drop r.url_count
  if rem'.isEmpty || r.url_count = 0 then [r]
  else
    match fuel with
    | 0 => [r]
    | fuel' + 1 => r :: paginatedLoopAux pagKey fuel' rem' (n + 1)

/-- The paginated chunk sequence of one locale. -/
def paginatedChunks (pagKey : String) (paginated_pages : List (String × String)) :
    List ChunkOut :=
  paginatedLoopAux pagKey 99 paginated_pages 1

/-- The master-chunk `while remaining_pages:` loop (src lines 656-682):
top-tested, otherwise the same shape as the paginated loop. -/
def masterLoopAux (fuel : Nat) (remaining : List (String × String)) (n : Nat) :
    List ChunkOut :=
  if remaining.isEmpty then []
  else
    let r := generate_sitemap none remaining "master" n false
    let rem' := remaining.drop r.url_count
    if rem'.isEmpty || r.url_count = 0 then [r]
    else
      match fuel with
      | 0 => [r]
      | fuel' + 1 => r :: masterLoopAux fuel' rem' (n + 1)

/-- The master chunk sequence (src lines 649-682). -/
def masterChunksOf (master_pages : List (String × String)) : List ChunkOut :=
  masterLoopAux 99 master_pages 1

/-- `locale_key = f"{section}_{country}" if section else lang_region.upper()`
with `country` uppercased (src lines 554-556). -/
def localeKeyOf (lang_region : String) (h : Homepage) : String :=
  if h.«section».isEmpty then pyUpper lang_region
  else h.«section» ++ "_" ++ pyUpper h.country

/-- Per-locale result: the regular and paginated chunk sequences. -/
structure LocaleOut where
  lang_region : String
  regular : List ChunkOut
  paginated : List ChunkOut
deriving Repr, DecidableEq

/-- Processing of one locale in the `index` loop (src lines 524-642): an
empty bucket yields a skipped-locale record; otherwise the bucket is split
into regular and paginated entries (input order preserved) and each
non-empty part is chunked. -/
def processLocale (internal : Buckets) (lang_region : String) (h : Homepage) :
    Sum LocaleOut SkippedLocale :=
  let pages := bucketGet internal lang_region
  if pages.isEmpty then
    .inr ⟨lang_region, h.url, h.«section», h.country⟩
  else
    let regular_pages := pages.filter (fun e => !is_paginated_url e.1)
    let paginated_pages := pages.filter (fun e => is_paginated_url e.1)
    let locale_key := localeKeyOf lang_region h
    let reg :=
      if regular_pages.isEmpty then []
      else regularChunks h.url locale_key regular_pages
    let pag :=
      if paginated_pages.isEmpty then []
      else paginatedChunks (locale_key ++ "_paginated") paginated_pages
    .inl ⟨lang_region, reg, pag⟩

/-- All `(url, locale_key)` pairs of a chunk sequence, in emission order. -/
def chunkUrls (cs : List ChunkOut) : List (String × String) :=
  (cs.map ChunkOut.url_list).flatten

/-- Everything the batch produces after the two parses. -/
structure PipelineOut where
  locales : List LocaleOut
  skipped : List SkippedLocale
  all_urls : List (String × String)
  all_urls_master : List (String × String)
  all_paginated_urls : List (String × String)
  master_pages : List (String × String)
  masterChunks : List ChunkOut
  progress : RunStatus
deriving Repr, DecidableEq

/-- The sitemap-generation part of the `index` route (src lines 514-723),
taking the parsed registry and buckets.  `all_urls` and `all_urls_master`
are both extended with every regular chunk's `url_list` (src lines
569-570); the master input is that list with blanked path patterns
(src line 650).  Intermediate `progress` mutations are elided; the final
record has the terminal `"Complete"`/100 values (src lines 716-717) and the
error field is never written after the parses. -/
def runPipeline (homepages : Registry) (internal : Buckets) (prog : RunStatus) :
    PipelineOut :=
  let results := homepages.map (fun kv => processLocale internal kv.1 kv.2)
  let locales := results.filterMap (fun r =>
    match r with | .inl l => some l | .inr _ => none)
  let skipped := results.filterMap (fun r =>
    match r with | .inl _ => none | .inr s => some s)
  let all_urls := (locales.map (fun l => chunkUrls l.regular)).flatten
  let all_paginated := (locales.map (fun l => chunkUrls l.paginated)).flatten
  let master_pages := all_urls.map (fun e => (e.1, ""))
  { locales := locales
    skipped := skipped
    all_urls := all_urls
    all_urls_master := all_urls
    all_paginated_urls := all_paginated
    master_pages := master_pages
    masterChunks := masterChunksOf master_pages
    progress := { status := "Complete", percentage := 100, error := prog.error } }

/-- The whole batch from the URL-inventory parse on (src lines 511-723):
parse the inventory against the registry, then run the generation pipeline.
The initial progress record is the reset at src line 506. -/
def runBatch (homepages : Registry) (fieldnames : List String) (rows : List Row) :
    Except InternalCsvError PipelineOut :=
  match parse_internal_csv fieldnames rows homepages
      { status := "Starting", percentage := 0, error := none } with
  | .error e => .error e
  | .ok out => .ok (runPipeline homepages out.pages out.progress)

/-! ## `save_sitemap` (src lines 432-449) -/

/-- What one `save_sitemap` call writes: the text of the raw `.xml` artifact
and the payload handed to the gzip writer. -/
structure SavedSitemap (γ : Type) where
  rawText : String
  gzPayload : γ
deriving Repr, DecidableEq

/-- Embedding of `save_sitemap` (src lines 432-449): the document is
pretty-printed once and the very same string is written to the raw file and
into `gzip.open(filename, 'wt', encoding='utf-8')`; both writers apply the
same UTF-8 text encoding, so the gzip layer receives exactly the raw
artifact's bytes to compress.  The codec is a parameter. -/
def save_sitemap {γ : Type} (compress : String → γ) (locs : List String) :
    SavedSitemap γ :=
  let pretty_xml := String.mk (prettyUrlset locs)
  ⟨pretty_xml, compress pretty_xml⟩

/-! ## Claim-support definitions -/

/-- The per-100-entry size checkpoints a finished chunk passed: every proper
prefix of the chunk's entries whose length is a positive multiple of 100 was
measured at or under the byte cap (an emitted chunk itself may exceed the
cap, since the measurement that detects this ends the chunk but keeps it). -/
def prefixCheckpointsOk (locs : List String) : Bool :=
  (List.range locs.length).all fun j =>
    if 0 < j ∧ j % 100 = 0 then
      decide (estimate_xml_size (locs.take j) ≤ maxSizeBytes)
    else true

/-- Invariant carried through the fill loop: every checkpoint reached so far
(length a positive multiple of 100, up to and including the whole list)
measured at or under the byte cap. -/
def InvFull (locs : List String) : Prop :=
  ∀ j, 0 < j → j % 100 = 0 → j ≤ locs.length →
    estimate_xml_size (locs.take j) ≤ maxSizeBytes

/-- A 52 500 000-character URL; a single entry with this `loc` makes the
pretty-printed document 52 500 127 bytes, over the 52 428 800-byte cap. -/
def bigUrl : String := String.mk (List.replicate 52500000 'a')

/-- One-locale registry with homepage `http://x.com` (no trailing slash, as
`parse_homepage_csv` stores it). -/
def oneLocaleRegistry : Registry :=
  [("en", ⟨"http://x.com", false, "", "en", "", ""⟩)]

/-- One-locale registry whose homepage itself matches the pagination
pattern. -/
def paginatedHomepageRegistry : Registry :=
  [("en", ⟨"http://x.com/Page-1", false, "", "en", "", ""⟩)]

/-- A single bucket holding one ordinary (non-paginated) URL. -/
def oneUrlBuckets : Buckets :=
  [("en", [("http://x.com/a", "")])]

/-! ## Theorems -/

/-- Reduction of `pagMatchAt` on a list of length at least 7. -/
theorem pagMatchAt_cons (a c1 c2 c3 c4 b d : Char) (rest : List Char) :
    pagMatchAt (a :: c1 :: c2 :: c3 :: c4 :: b :: d :: rest) =
      (decide (a = '/') && decide (c1.toLower = 'p') && decide (c2.toLower = 'a') &&
        decide (c3.toLower = 'g') && decide (c4.toLower = 'e') && decide (b = '-') &&
        d.isDigit) := rfl

/-- Characterization of the regex search: a match is a decomposition of the
character list around a `/Page-<digit>` occurrence (case-insensitive). -/
theorem searchPag_iff (cs : List Char) :
    searchPag cs = true ↔
      ∃ pre c1 c2 c3 c4 d post,
        cs = pre ++ '/' :: c1 :: c2 :: c3 :: c4 :: '-' :: d :: post ∧
        c1.toLower = 'p' ∧ c2.toLower = 'a' ∧ c3.toLower = 'g' ∧
        c4.toLower = 'e' ∧ d.isDigit = true := by
  induction cs with
  | nil =>
    constructor
    · intro h
      exact absurd h (by simp [searchPag])
    · rintro ⟨pre, c1, c2, c3, c4, d, post, h, -⟩
      simp at h
  | cons c cs ih =>
    simp only [searchPag, Bool.or_eq_true]
    constructor
    · rintro (hm | hs)
      · rcases cs with _ | ⟨c1, _ | ⟨c2, _ | ⟨c3, _ | ⟨c4, _ | ⟨b, _ | ⟨d, rest⟩⟩⟩⟩⟩⟩
        all_goals try exact absurd hm (by intro hx; exact Bool.noConfusion hx)
        rw [pagMatchAt_cons] at hm
        simp only [Bool.and_eq_true, decide_eq_true_eq] at hm
        obtain ⟨⟨⟨⟨⟨⟨hc, h1⟩, h2⟩, h3⟩, h4⟩, hb⟩, hd⟩ := hm
        subst hc; subst hb
        exact ⟨[], c1, c2, c3, c4, d, rest, rfl, h1, h2, h3, h4, hd⟩
      · obtain ⟨pre, c1, c2, c3, c4, d, post, heq, h1, h2, h3, h4, hd⟩ := ih.mp hs
        exact ⟨c :: pre, c1, c2, c3, c4, d, post, by rw [heq, List.cons_append], h1, h2,
          h3, h4, hd⟩
    · rintro ⟨pre, c1, c2, c3, c4, d, post, heq, h1, h2, h3, h4, hd⟩
      cases pre with
      | nil =>
        left
        cases heq
        rw [pagMatchAt_cons]
        simp [h1, h2, h3, h4, hd]
      | cons p pre' =>
        right
        rw [List.cons_append] at heq
        injection heq with hcp htail
        exact ih.mpr ⟨pre', c1, c2, c3, c4, d, post, htail, h1, h2, h3, h4, hd⟩

/-- C4 (counterexample): the claim ties the pagination predicate to the URL
*path*, but `is_paginated_url "http://x.com/list?ref=/Page-2"` is `true`
although the URL's path `/list` contains no `/Page-<digits>` segment — the
regex is searched over the whole URL string, query included. -/
theorem c4_counterexample :
    is_paginated_url "http://x.com/list?ref=/Page-2" = true ∧
    searchPag (pyUrlparse "http://x.com/list?ref=/Page-2").path.data = false := by
  exact ⟨rfl, rfl⟩

/-- C4 (amended): `is_paginated_url` returns `true` iff `/Page-` followed by
a digit occurs, case-insensitively, anywhere in the *full URL string*
(path, query string and fragment alike), not merely in its path. -/
theorem c4_amended (url : String) :
    is_paginated_url url = true ↔
      ∃ pre c1 c2 c3 c4 d post,
        url.data = pre ++ '/' :: c1 :: c2 :: c3 :: c4 :: '-' :: d :: post ∧
        c1.toLower = 'p' ∧ c2.toLower = 'a' ∧ c3.toLower = 'g' ∧
        c4.toLower = 'e' ∧ d.isDigit = true :=
  searchPag_iff url.data

/-- C9 (confirmed): for any compression codec, `save_sitemap` hands the gzip
writer exactly the pretty-printed XML string it writes raw, so decompressing
the gzip artifact yields content byte-identical to the raw counterpart. -/
theorem c9_gzip_raw_identical {γ : Type} (compress : String → γ)
    (decompress : γ → String) (hround : ∀ s, decompress (compress s) = s)
    (locs : List String) :
    (save_sitemap compress locs).rawText = String.mk (prettyUrlset locs) ∧
    decompress (save_sitemap compress locs).gzPayload =
      (save_sitemap compress locs).rawText :=
  ⟨rfl, hround _⟩

/-- C9 witness: the round-trip hypothesis discharged with the identity
codec on a concrete document. -/
theorem c9_gzip_raw_identical_witness :
    (@save_sitemap String id ["http://x.com/"]).rawText =
      String.mk (prettyUrlset ["http://x.com/"]) ∧
    id (@save_sitemap String id ["http://x.com/"]).gzPayload =
      (@save_sitemap String id ["http://x.com/"]).rawText :=
  @c9_gzip_raw_identical String id id (fun _ => rfl) ["http://x.com/"]

/-- Unfolding of `assignLocale` past a non-matching registry head. -/
theorem assignLocale_cons_of_not_match (k : String) (hd : Homepage)
    (rest : Registry) (parsed : UrlParts)
    (h : ¬ pyStartswith parsed.path (rstripSlash (pyUrlparse hd.url).path) = true) :
    assignLocale ((k, hd) :: rest) parsed = assignLocale rest parsed := by
  simp only [assignLocale, matchHomepage, if_neg h]

/-- C3 (confirmed): locale assignment is first-match over the registry in
insertion order — either the registry splits as `pre ++ e :: post` where
every entry of `pre` fails the prefix test, `e` passes it, and the assigned
key is `e`'s key; or no entry passes and the assigned key is the lowercased
`scheme://netloc` of the URL.  In particular ties are resolved purely by
registry order, not by match length. -/
theorem c3_first_match (homepages : Registry) (parsed : UrlParts) :
    (∃ pre e post,
        homepages = pre ++ e :: post ∧
        pyStartswith parsed.path (rstripSlash (pyUrlparse e.2.url).path) = true ∧
        (∀ e' ∈ pre,
          ¬ pyStartswith parsed.path (rstripSlash (pyUrlparse e'.2.url).path) = true) ∧
        assignLocale homepages parsed = e.1) ∨
    ((∀ e ∈ homepages,
        ¬ pyStartswith parsed.path (rstripSlash (pyUrlparse e.2.url).path) = true) ∧
      assignLocale homepages parsed =
        pyLower (parsed.scheme ++ "://" ++ parsed.netloc)) := by
  induction homepages with
  | nil =>
    right
    exact ⟨by simp, rfl⟩
  | cons e rest ih =>
    obtain ⟨k, hd⟩ := e
    by_cases h : pyStartswith parsed.path (rstripSlash (pyUrlparse hd.url).path) = true
    · left
      refine ⟨[], (k, hd), rest, rfl, h, by simp, ?_⟩
      simp only [assignLocale, matchHomepage, if_pos h]
    · rcases ih with ⟨pre, e', post, heq, hme, hpre, hkey⟩ | ⟨hall, hkey⟩
      · left
        refine ⟨(k, hd) :: pre, e', post, by rw [heq, List.cons_append], hme, ?_, ?_⟩
        · intro e'' he''
          rcases List.mem_cons.mp he'' with rfl | hmem
          · exact h
          · exact hpre e'' hmem
        · rw [assignLocale_cons_of_not_match k hd rest parsed h, hkey]
      · right
        refine ⟨?_, ?_⟩
        · intro e'' he''
          rcases List.mem_cons.mp he'' with rfl | hmem
          · exact h
          · exact hall e'' hmem
        · rw [assignLocale_cons_of_not_match k hd rest parsed h, hkey]

/-- C8 (confirmed): in Country+Language mode, a row with a non-empty
homepage URL is stored under key `language.lower()` when the
`Language Default` flag equals `Y`, and under
`language.lower() ++ "-" ++ country.lower()` otherwise, holding the
slash-stripped URL and the lowercased fields. -/
theorem c8_cl_mode_key (reg : Registry) (url country language locale dflt : String)
    (h : (rstripSlash url).isEmpty = false) :
    processHomepageRow true false reg
      [("Homepage", url), ("Country", country), ("Language", language),
       ("Locale", locale), ("Language Default", dflt)] =
    registryPut reg
      (if dflt = "Y" then pyLower language
       else pyLower language ++ "-" ++ pyLower country)
      ⟨rstripSlash url, decide (dflt = "Y"), pyLower country, pyLower language,
        pyLower locale, ""⟩ := by
  by_cases hdf : dflt = "Y" <;>
    simp [processHomepageRow, rowGet, h, hdf]

/-- C8 witness: the spec scenario — rows `(en, us, Y)` and `(en, gb, N)`
processed in order yield exactly the registry keys `en` and `en-gb`. -/
theorem c8_cl_mode_key_witness :
    processHomepageRow true false []
      [("Homepage", "http://us.x.com/"), ("Country", "us"), ("Language", "en"),
       ("Locale", ""), ("Language Default", "Y")] =
      [("en", ⟨"http://us.x.com", true, "us", "en", "", ""⟩)] ∧
    processHomepageRow true false
      [("en", ⟨"http://us.x.com", true, "us", "en", "", ""⟩)]
      [("Homepage", "http://gb.x.com/"), ("Country", "gb"), ("Language", "en"),
       ("Locale", ""), ("Language Default", "N")] =
      [("en", ⟨"http://us.x.com", true, "us", "en", "", ""⟩),
       ("en-gb", ⟨"http://gb.x.com", false, "gb", "en", "", ""⟩)] := by
  constructor
  · exact (c8_cl_mode_key [] "http://us.x.com/" "us" "en" "" "Y" (by decide)).trans
      (by decide)
  · exact (c8_cl_mode_key [("en", ⟨"http://us.x.com", true, "us", "en", "", ""⟩)]
      "http://gb.x.com/" "gb" "en" "" "N" (by decide)).trans (by decide)

/-- When the header matches neither mode (`hasCL` and `hasSection` both
false), every row is skipped (the Python body raises `NameError` on the
unbound `key` and the per-row handler swallows it). -/
theorem processHomepageRow_no_mode (reg : Registry) (row : Row) :
    processHomepageRow false false reg row = reg := by
  simp [processHomepageRow]

/-- Folding the no-mode row processor changes nothing. -/
theorem foldl_processHomepageRow_no_mode (rows : List Row) (reg : Registry) :
    rows.foldl (processHomepageRow false false) reg = reg := by
  induction rows generalizing reg with
  | nil => rfl
  | cons r rs ih => rw [List.foldl_cons, processHomepageRow_no_mode, ih]

/-- C6 (counterexample): a header containing `Country` but neither
`Language` nor `Section` does *not* fail with a ConfigurationError — the
header check only requires `Country` or `Section`, every row is then
skipped, and the parse ends with the empty-registry ValidationError. -/
theorem c6_counterexample :
    parse_homepage_csv ["Homepage", "Country"]
        [[("Homepage", "http://x.com"), ("Country", "us")]] =
      .error .noValidHomepages ∧
    isConfigurationError .noValidHomepages = false :=
  ⟨rfl, rfl⟩

/-- C6 (amended): the header check raises a ConfigurationError exactly when
neither `Country` nor `Section` is present; a header with `Country` but no
`Language` and no `Section` passes the check, after which no row matches
either mode, so any row list ends in the empty-registry ValidationError. -/
theorem c6_amended :
    (∀ (fieldnames : List String) (rows : List Row),
        sepInFirstField fieldnames = false → "Country" ∈ fieldnames →
        "Language" ∉ fieldnames → "Section" ∉ fieldnames →
        parse_homepage_csv fieldnames rows = .error .noValidHomepages) ∧
    (∀ (fieldnames : List String) (rows : List Row),
        sepInFirstField fieldnames = false →
        "Country" ∉ fieldnames → "Section" ∉ fieldnames →
        parse_homepage_csv fieldnames rows =
          .error (.missingRequiredColumns fieldnames)) := by
  constructor
  · intro fieldnames rows hsep hc hl hs
    simp only [parse_homepage_csv, hsep, Bool.false_eq_true, if_false, hc, hl, hs,
      decide_True, decide_False, Bool.and_false, Bool.not_true, Bool.not_false,
      Bool.false_and, Bool.and_true, not_false_eq_true, decide_not]
    rw [foldl_processHomepageRow_no_mode]
    rfl
  · intro fieldnames rows hsep hc hs
    simp [parse_homepage_csv, hsep, hc, hs]

/-- C6 witness: both branches of the amended claim at concrete headers. -/
theorem c6_amended_witness :
    parse_homepage_csv ["Homepage", "Country"] [] = .error .noValidHomepages ∧
    parse_homepage_csv ["Homepage", "Address"] [] =
      .error (.missingRequiredColumns ["Homepage", "Address"]) :=
  ⟨c6_amended.1 ["Homepage", "Country"] [] (by decide) (by decide) (by decide)
      (by decide),
    c6_amended.2 ["Homepage", "Address"] [] (by decide) (by decide) (by decide)⟩

/-- Fill-loop invariant for deduplication: if the accumulated `loc` texts
are distinct, all covered by the dedup set, and counted exactly, the final
chunk keeps those properties. -/
theorem sitemapLoop_nodup_inv (key : String) (pages : List (String × String)) :
    ∀ (locs : List String) (ul : List (String × String)) (count : Nat)
      (added : List String),
      (∀ x ∈ locs, x ∈ added) → locs.Nodup → count = locs.length →
      (sitemapLoop key pages locs ul count added).locs.Nodup ∧
      (sitemapLoop key pages locs ul count added).url_count =
        (sitemapLoop key pages locs ul count added).locs.length := by
  induction pages with
  | nil =>
    intro locs ul count added hsub hnd hlen
    exact ⟨hnd, hlen⟩
  | cons e rest ih =>
    intro locs ul count added hsub hnd hlen
    obtain ⟨full_url, p⟩ := e
    by_cases hmem : full_url ∈ added
    · simp only [sitemapLoop, if_pos hmem]
      exact ih locs ul count added hsub hnd hlen
    · by_cases hmax : MAX_URLS_PER_SITEMAP ≤ count
      · simp only [sitemapLoop, if_neg hmem, if_pos hmax]
        exact ⟨hnd, hlen⟩
      · simp only [sitemapLoop, if_neg hmem, if_neg hmax]
        have hnotin : full_url ∉ locs := fun hx => hmem (hsub full_url hx)
        have hnd' : (locs ++ [full_url]).Nodup :=
          List.Nodup.append hnd (List.nodup_singleton full_url)
            (fun a ha hb => hnotin ((List.mem_singleton.mp hb) ▸ ha))
        have hsub' : ∀ x ∈ locs ++ [full_url], x ∈ added ++ [full_url] := by
          intro x hx
          rcases List.mem_append.mp hx with hx | hx
          · exact List.mem_append.mpr (Or.inl (hsub x hx))
          · exact List.mem_append.mpr (Or.inr hx)
        have hlen' : count + 1 = (locs ++ [full_url]).length := by
          simp [List.length_append, hlen]
        split
        · exact ⟨hnd', hlen'⟩
        · exact ih (locs ++ [full_url]) (ul ++ [(full_url, key)]) (count + 1)
            (added ++ [full_url]) hsub' hnd' hlen'

/-- C10 (counterexample): a single `generate_sitemap` call can emit the same
URL twice — when the homepage already ends with `/`, its `loc` text is the
homepage itself but the dedup set stores `homepage + '/'`, so an input entry
equal to the homepage is not recognised as a duplicate. -/
theorem c10_counterexample :
    (generate_sitemap (some "http://x.com/") [("http://x.com/", "")] "k" 1
        true).locs = ["http://x.com/", "http://x.com/"] ∧
    ¬ (generate_sitemap (some "http://x.com/") [("http://x.com/", "")] "k" 1
        true).locs.Nodup := by
  exact ⟨rfl, by decide⟩

/-- C10 (amended): provided the supplied homepage URL does not already end
with `/` (true for every in-repo call site, since `parse_homepage_csv`
strips trailing slashes), one `generate_sitemap` call never emits a URL
twice, and skipped duplicates do not count: `url_count` equals the number
of emitted entries. -/
theorem c10_amended (homepage_url : Option String)
    (pages : List (String × String)) (locale_key : String) (sitemap_index : Nat)
    (include_homepage : Bool)
    (h : ∀ s, homepage_url = some s → pyEndswith s "/" = false) :
    (generate_sitemap homepage_url pages locale_key sitemap_index
        include_homepage).locs.Nodup ∧
    (generate_sitemap homepage_url pages locale_key sitemap_index
        include_homepage).url_count =
      (generate_sitemap homepage_url pages locale_key sitemap_index
        include_homepage).locs.length := by
  cases homepage_url with
  | none =>
    exact sitemapLoop_nodup_inv locale_key pages [] [] 0 [] (fun _ hx => hx)
      List.nodup_nil rfl
  | some hp =>
    have hends : pyEndswith hp "/" = false := h hp rfl
    simp only [generate_sitemap]
    split
    · rw [hends]
      simp only [Bool.false_eq_true, if_false]
      exact sitemapLoop_nodup_inv locale_key pages [hp ++ "/"]
        [(hp ++ "/", locale_key)] 1 [hp ++ "/"] (fun _ hx => hx)
        (List.nodup_singleton _) rfl
    · exact sitemapLoop_nodup_inv locale_key pages [] [] 0 [] (fun _ hx => hx)
        List.nodup_nil rfl

/-- C10 witness: the amended claim at a homepage without trailing slash and
an input containing a duplicate entry. -/
theorem c10_amended_witness :
    (generate_sitemap (some "http://x.com")
        [("http://x.com/a", ""), ("http://x.com/a", "")] "K" 1 true).locs.Nodup ∧
    (generate_sitemap (some "http://x.com")
        [("http://x.com/a", ""), ("http://x.com/a", "")] "K" 1 true).url_count =
      (generate_sitemap (some "http://x.com")
        [("http://x.com/a", ""), ("http://x.com/a", "")] "K" 1 true).locs.length :=
  c10_amended (some "http://x.com") [("http://x.com/a", ""), ("http://x.com/a", "")]
    "K" 1 true (fun s hs => by cases hs; rfl)

/-- UTF-8 byte length is additive over concatenation. -/
theorem byteLen_append (a b : List Char) :
    byteLen (a ++ b) = byteLen a + byteLen b := by
  simp [byteLen, List.map_append, List.sum_append]

/-- Bridge between the Boolean checkpoint check and its proposition. -/
theorem prefixCheckpointsOk_iff (locs : List String) :
    prefixCheckpointsOk locs = true ↔
      ∀ j, 0 < j → j % 100 = 0 → j < locs.length →
        estimate_xml_size (locs.take j) ≤ maxSizeBytes := by
  unfold prefixCheckpointsOk
  rw [List.all_eq_true]
  constructor
  · intro h j hj hj100 hjlt
    have := h j (List.mem_range.mpr hjlt)
    rw [if_pos ⟨hj, hj100⟩] at this
    exact of_decide_eq_true this
  · intro h j hjmem
    by_cases hc : 0 < j ∧ j % 100 = 0
    · rw [if_pos hc]
      exact decide_eq_true (h j hc.1 hc.2 (List.mem_range.mp hjmem))
    · rw [if_neg hc]

/-- Fill-loop invariant for the limits: the URL cap is never exceeded, and
every checkpoint that let filling continue (every proper prefix whose length
is a positive multiple of 100) measured at or under the byte cap. -/
theorem sitemapLoop_bounds (key : String) (pages : List (String × String)) :
    ∀ (locs : List String) (ul : List (String × String)) (count : Nat)
      (added : List String),
      count = locs.length → count ≤ MAX_URLS_PER_SITEMAP → InvFull locs →
      (sitemapLoop key pages locs ul count added).url_count ≤
        MAX_URLS_PER_SITEMAP ∧
      (∀ j, 0 < j → j % 100 = 0 →
        j < (sitemapLoop key pages locs ul count added).locs.length →
        estimate_xml_size ((sitemapLoop key pages locs ul count added).locs.take j) ≤
          maxSizeBytes) := by
  induction pages with
  | nil =>
    intro locs ul count added hlen hmax hinv
    exact ⟨hmax, fun j hj hj100 hjlt => hinv j hj hj100 (le_of_lt hjlt)⟩
  | cons e rest ih =>
    intro locs ul count added hlen hmax hinv
    obtain ⟨full_url, p⟩ := e
    by_cases hmem : full_url ∈ added
    · simp only [sitemapLoop, if_pos hmem]
      exact ih locs ul count added hlen hmax hinv
    · by_cases hstop : MAX_URLS_PER_SITEMAP ≤ count
      · simp only [sitemapLoop, if_neg hmem, if_pos hstop]
        exact ⟨hmax, fun j hj hj100 hjlt => hinv j hj hj100 (le_of_lt hjlt)⟩
      · simp only [sitemapLoop, if_neg hmem, if_neg hstop]
        have hlen' : count + 1 = (locs ++ [full_url]).length := by simp [hlen]
        have htake : ∀ j, j ≤ locs.length →
            (locs ++ [full_url]).take j = locs.take j :=
          fun j hjle => List.take_append_of_le_length hjle
        split
        · next hbreak =>
          constructor
          · show count + 1 ≤ MAX_URLS_PER_SITEMAP
            omega
          · intro j hj hj100 hjlt
            show estimate_xml_size ((locs ++ [full_url]).take j) ≤ maxSizeBytes
            have hjlt' : j < (locs ++ [full_url]).length := hjlt
            simp only [List.length_append, List.length_singleton] at hjlt'
            have hjle : j ≤ locs.length := by omega
            rw [htake j hjle]
            exact hinv j hj hj100 hjle
        · next hcont =>
          refine ih (locs ++ [full_url]) (ul ++ [(full_url, key)]) (count + 1)
            (added ++ [full_url]) hlen' (by omega) ?_
          intro j hj hj100 hjle
          simp only [List.length_append, List.length_singleton] at hjle
          by_cases hje : j = locs.length + 1
          · subst hje
            have hfull : (locs ++ [full_url]).take (locs.length + 1) =
                locs ++ [full_url] := by
              have : locs.length + 1 = (locs ++ [full_url]).length := by simp
              rw [this, List.take_length]
            rw [hfull]
            rw [Bool.and_eq_true, not_and] at hcont
            have h100' : decide ((count + 1) % 100 = 0) = true := by
              rw [decide_eq_true_eq]
              omega
            have := hcont h100'
            rw [decide_eq_true_eq] at this
            omega
          · have hjle' : j ≤ locs.length := by omega
            rw [htake j hjle']
            exact hinv j hj hj100 hjle'

/-- C1 (amended): every chunk emitted by `generate_sitemap` holds at most
50000 URL entries; the 50 MB bound, however, only holds for the size
checkpoints that allowed filling to continue — every proper prefix of the
chunk whose length is a positive multiple of 100 measures at most 50 MB —
while the emitted chunk itself may exceed 50 MB (the size is only measured
every 100 entries, and the measurement that detects the overflow ends the
chunk but keeps its contents). -/
theorem c1_amended (homepage_url : Option String) (pages : List (String × String))
    (locale_key : String) (sitemap_index : Nat) (include_homepage : Bool) :
    (generate_sitemap homepage_url pages locale_key sitemap_index
        include_homepage).url_count ≤ MAX_URLS_PER_SITEMAP ∧
    prefixCheckpointsOk (generate_sitemap homepage_url pages locale_key
        sitemap_index include_homepage).locs = true := by
  have hinv0 : InvFull [] := by
    intro j hj hj100 hjle
    simp at hjle
    omega
  have hinv1 : ∀ u : String, InvFull [u] := by
    intro u j hj hj100 hjle
    simp only [List.length_singleton] at hjle
    omega
  cases homepage_url with
  | none =>
    obtain ⟨h1, h2⟩ := sitemapLoop_bounds locale_key pages [] [] 0 [] rfl
      (by simp [MAX_URLS_PER_SITEMAP]) hinv0
    exact ⟨h1, (prefixCheckpointsOk_iff _).mpr h2⟩
  | some hp =>
    simp only [generate_sitemap]
    split
    · obtain ⟨h1, h2⟩ := sitemapLoop_bounds locale_key pages
        [if pyEndswith hp "/" = true then hp else hp ++ "/"]
        [(hp ++ "/", locale_key)] 1 [hp ++ "/"] (by simp)
        (by simp [MAX_URLS_PER_SITEMAP]) (hinv1 _)
      exact ⟨h1, (prefixCheckpointsOk_iff _).mpr h2⟩
    · obtain ⟨h1, h2⟩ := sitemapLoop_bounds locale_key pages [] [] 0 [] rfl
        (by simp [MAX_URLS_PER_SITEMAP]) hinv0
      exact ⟨h1, (prefixCheckpointsOk_iff _).mpr h2⟩

/-- Escaping an all-`'a'` character list changes nothing. -/
theorem flatMap_escChar_replicate (n : Nat) :
    (List.replicate n 'a').flatMap escChar = List.replicate n 'a' := by
  induction n with
  | zero => rfl
  | succ n ih =>
    rw [List.replicate_succ, List.flatMap_cons, ih]
    rfl

/-- An all-`'a'` character list is `n` UTF-8 bytes long. -/
theorem byteLen_replicate_a (n : Nat) : byteLen (List.replicate n 'a') = n := by
  simp only [byteLen, List.map_replicate, List.sum_replicate, smul_eq_mul]
  rw [show Char.utf8Size 'a' = 1 from rfl, mul_one]

/-- The one-entry document is the fixed markup around the escaped text. -/
theorem prettyUrlset_single (u : String) :
    prettyUrlset [u] =
      "<?xml version=\"1.0\" ?>\n<urlset xmlns=\"http://www.sitemaps.org/schemas/sitemap/0.9\">\n".data ++
        ("  <url>\n    <loc>".data ++ minidomEscape u ++ "</loc>\n  </url>\n".data) ++
        "</urlset>\n".data := by
  unfold prettyUrlset
  rw [if_neg (by simp : ¬(([u] : List String).isEmpty = true))]
  rw [show ([u].map urlBlock).flatten = urlBlock u ++ [] from rfl, List.append_nil]
  rfl

/-- The estimated size of a one-entry document is 127 bytes of fixed markup
plus the escaped `loc` text. -/
theorem estimate_xml_size_single (u : String) :
    estimate_xml_size [u] = 127 + byteLen (minidomEscape u) := by
  unfold estimate_xml_size
  rw [prettyUrlset_single, byteLen_append, byteLen_append, byteLen_append,
    byteLen_append]
  have h1 : byteLen "<?xml version=\"1.0\" ?>\n<urlset xmlns=\"http://www.sitemaps.org/schemas/sitemap/0.9\">\n".data = 84 := by
    decide
  have h2 : byteLen "  <url>\n    <loc>".data = 17 := by decide
  have h3 : byteLen "</loc>\n  </url>\n".data = 16 := by decide
  have h4 : byteLen "</urlset>\n".data = 10 := by decide
  omega

/-- C1 (counterexample): a chunk emitted by `generate_sitemap` can exceed
the 50 MB estimated-size cap — a single 52 500 000-character URL yields one
emitted chunk whose estimated size is 52 500 127 bytes, over the
52 428 800-byte limit (the size is only checked every 100 entries). -/
theorem c1_counterexample :
    maxSizeBytes <
      estimate_xml_size
        (generate_sitemap none [(bigUrl, "")] "master" 1 false).locs := by
  have hloc : (generate_sitemap none [(bigUrl, "")] "master" 1 false).locs =
      [bigUrl] := rfl
  rw [hloc, estimate_xml_size_single]
  have hesc : minidomEscape bigUrl = List.replicate 52500000 'a' :=
    flatMap_escChar_replicate 52500000
  rw [hesc, byteLen_replicate_a]
  norm_num [maxSizeBytes]

/-- C2 (code bug, evaluated at the failing input): with homepage
`http://example.com` and regular pages `[/a, /]` (the slash-normalized
homepage itself appears in the crawl, a routine input), the regular chunk
loop emits the homepage URL in chunk 1 *and again in chunk 2*: chunk 1
skips the duplicate entry but the `remaining[url_count-1:]` slicing does
not account for skipped duplicates, so the homepage entry rolls into
chunk 2, whose `generate_sitemap` call starts with an empty dedup set. -/
theorem c2_homepage_reemitted :
    (regularChunks "http://example.com" "EN"
        [("http://example.com/a", ""), ("http://example.com/", "")]).map
        ChunkOut.url_list =
      [[("http://example.com/", "EN"), ("http://example.com/a", "EN")],
       [("http://example.com/", "EN")]] := rfl

/-- The pipeline's terminal progress record: status `Complete`, 100 %, and
the error field exactly as the parses left it. -/
theorem runPipeline_progress (homepages : Registry) (internal : Buckets)
    (prog : RunStatus) :
    (runPipeline homepages internal prog).progress =
      ⟨"Complete", 100, prog.error⟩ := rfl

/-- C5 (amended): when the URL-inventory parse finds zero indexable URLs it
records the error in the shared progress record — but it returns normally
and the batch continues to a terminal `Complete`/100 state with the error
field still set; the run is not aborted. -/
theorem c5_amended (fieldnames : List String) (rows : List Row)
    (homepages : Registry) (prog : RunStatus) (out : ParseInternalOut)
    (h : parse_internal_csv fieldnames rows homepages prog = .ok out)
    (hzero : out.indexable_count = 0) :
    out.progress.error = some noIndexableMsg ∧
    (runPipeline homepages out.pages out.progress).progress =
      ⟨"Complete", 100, some noIndexableMsg⟩ := by
  simp only [parse_internal_csv] at h
  split at h
  · exact absurd h (by simp)
  · split at h
    · exact absurd h (by simp)
    · rw [Except.ok.injEq] at h
      subst h
      have hz : (rows.foldl
          (processInternalRow _ (find_indexability_column fieldnames)
            (homepages.map fun kv =>
              (pyUrlparse kv.2.url).scheme ++ "://" ++ (pyUrlparse kv.2.url).netloc)
            homepages) ([], 0)).2 = 0 := hzero
      constructor
      · show (if _ = 0 then { prog with error := some noIndexableMsg } else prog).error =
          some noIndexableMsg
        rw [if_pos hz]
      · rw [runPipeline_progress]
        show (⟨"Complete", 100,
          (if _ = 0 then { prog with error := some noIndexableMsg } else prog).error⟩ :
            RunStatus) = _
        rw [if_pos hz]

/-- C5 witness: the amended claim at a concrete empty inventory. -/
theorem c5_amended_witness :
    (⟨[], 0, ⟨"Starting", 0, some noIndexableMsg⟩⟩ :
        ParseInternalOut).progress.error = some noIndexableMsg ∧
    (runPipeline oneLocaleRegistry []
        ⟨"Starting", 0, some noIndexableMsg⟩).progress =
      ⟨"Complete", 100, some noIndexableMsg⟩ :=
  c5_amended ["URL"] [] oneLocaleRegistry ⟨"Starting", 0, none⟩
    ⟨[], 0, ⟨"Starting", 0, some noIndexableMsg⟩⟩ rfl rfl

/-- C5 (counterexample): the claim says the batch "does not proceed to a
successful completion state", but on an inventory with zero indexable URLs
the batch runs to the end and finishes with status `Complete` at 100 % —
only the error field distinguishes the run from a clean one. -/
theorem c5_counterexample :
    ((runBatch oneLocaleRegistry ["URL"] []).toOption.map PipelineOut.progress) =
      some ⟨"Complete", 100, some noIndexableMsg⟩ := rfl

/-- `chunkUrls` of a singleton chunk list. -/
theorem chunkUrls_singleton (r : ChunkOut) : chunkUrls [r] = r.url_list := by
  simp [chunkUrls]

/-- `chunkUrls` distributes over cons. -/
theorem chunkUrls_cons (r : ChunkOut) (tail : List ChunkOut) :
    chunkUrls (r :: tail) = r.url_list ++ chunkUrls tail := by
  simp [chunkUrls]

/-- Every `url_list` entry of a chunk comes from the initial list or from an
input page, always tagged with the chunk's locale key. -/
theorem sitemapLoop_urllist_mem (key : String) (pages : List (String × String)) :
    ∀ (locs : List String) (ul : List (String × String)) (count : Nat)
      (added : List String) (e : String × String),
      e ∈ (sitemapLoop key pages locs ul count added).url_list →
      e ∈ ul ∨ ∃ p, (e.1, p) ∈ pages ∧ e.2 = key := by
  induction pages with
  | nil =>
    intro locs ul count added e he
    exact Or.inl he
  | cons ent rest ih =>
    intro locs ul count added e he
    obtain ⟨full_url, p⟩ := ent
    by_cases hmem : full_url ∈ added
    · simp only [sitemapLoop, if_pos hmem] at he
      rcases ih locs ul count added e he with h | ⟨p', hp', hk⟩
      · exact Or.inl h
      · exact Or.inr ⟨p', List.mem_cons_of_mem _ hp', hk⟩
    · by_cases hstop : MAX_URLS_PER_SITEMAP ≤ count
      · simp only [sitemapLoop, if_neg hmem, if_pos hstop] at he
        exact Or.inl he
      · simp only [sitemapLoop, if_neg hmem, if_neg hstop] at he
        split at he
        · rcases List.mem_append.mp he with h | h
          · exact Or.inl h
          · rw [List.mem_singleton] at h
            subst h
            exact Or.inr ⟨p, List.mem_cons_self _ _, rfl⟩
        · rcases ih _ _ _ _ e he with h | ⟨p', hp', hk⟩
          · rcases List.mem_append.mp h with h | h
            · exact Or.inl h
            · rw [List.mem_singleton] at h
              subst h
              exact Or.inr ⟨p, List.mem_cons_self _ _, rfl⟩
          · exact Or.inr ⟨p', List.mem_cons_of_mem _ hp', hk⟩

/-- Every `url_list` entry of a generated chunk is the normalized homepage
entry or an input page entry tagged with the locale key. -/
theorem generate_sitemap_urllist_mem (homepage_url : Option String)
    (pages : List (String × String)) (key : String) (idx : Nat) (inc : Bool)
    (e : String × String)
    (he : e ∈ (generate_sitemap homepage_url pages key idx inc).url_list) :
    (∃ hp, homepage_url = some hp ∧ e = (hp ++ "/", key)) ∨
      ∃ p, (e.1, p) ∈ pages ∧ e.2 = key := by
  cases homepage_url with
  | none =>
    rcases sitemapLoop_urllist_mem key pages [] [] 0 [] e he with h | h
    · exact absurd h (List.not_mem_nil e)
    · exact Or.inr h
  | some hp =>
    simp only [generate_sitemap] at he
    split at he
    · rcases sitemapLoop_urllist_mem key pages _ [(hp ++ "/", key)] 1 [hp ++ "/"]
        e he with h | h
      · rw [List.mem_singleton] at h
        exact Or.inl ⟨hp, rfl, h⟩
      · exact Or.inr h
    · rcases sitemapLoop_urllist_mem key pages [] [] 0 [] e he with h | h
      · exact absurd h (List.not_mem_nil e)
      · exact Or.inr h

/-- Every `(url, key)` pair emitted across a locale's regular chunks is the
normalized homepage entry or stems from a remaining input page. -/
theorem regularLoopAux_urllist_mem (hp key : String) :
    ∀ (fuel : Nat) (remaining : List (String × String)) (n : Nat)
      (e : String × String),
      e ∈ chunkUrls (regularLoopAux hp key fuel remaining n) →
      e = (hp ++ "/", key) ∨ ∃ p, (e.1, p) ∈ remaining ∧ e.2 = key := by
  intro fuel
  induction fuel with
  | zero =>
    intro remaining n e he
    simp only [regularLoopAux] at he
    rw [ite_self, chunkUrls_singleton] at he
    rcases generate_sitemap_urllist_mem (some hp) remaining key n true e he with
      ⟨hp', heq, he'⟩ | h
    · rw [Option.some.injEq] at heq
      subst heq
      exact Or.inl he'
    · exact Or.inr h
  | succ fuel ih =>
    intro remaining n e he
    simp only [regularLoopAux] at he
    split at he <;> split at he <;>
      first
        | (rw [chunkUrls_singleton] at he
           rcases generate_sitemap_urllist_mem (some hp) remaining key n true e he with
             ⟨hp', heq, he'⟩ | h
           · rw [Option.some.injEq] at heq
             subst heq
             exact Or.inl he'
           · exact Or.inr h)
        | (rw [chunkUrls_cons] at he
           rcases List.mem_append.mp he with h | h
           · rcases generate_sitemap_urllist_mem (some hp) remaining key n true e h with
               ⟨hp', heq, he'⟩ | h'
             · rw [Option.some.injEq] at heq
               subst heq
               exact Or.inl he'
             · exact Or.inr h'
           · rcases ih _ _ e h with h' | ⟨p, hpm, hk⟩
             · exact Or.inl h'
             · exact Or.inr ⟨p, List.drop_subset _ _ hpm, hk⟩)

/-- C7 (amended): the master sequence is exactly the concatenation, in
locale-processing order, of every regular chunk's `url_list` (so the counts
agree) — but it is not entirely free of paginated URLs: every master entry
is either non-paginated or the slash-normalized homepage URL of some
registry locale, and a homepage that itself matches the pagination pattern
is carried into the master sequence. -/
theorem c7_amended (homepages : Registry) (internal : Buckets)
    (prog : RunStatus) :
    (runPipeline homepages internal prog).master_pages.length =
      ((runPipeline homepages internal prog).locales.map
        (fun l => (l.regular.map (fun c => c.url_list.length)).sum)).sum ∧
    (runPipeline homepages internal prog).master_pages =
      ((runPipeline homepages internal prog).locales.map
        (fun l => chunkUrls l.regular)).flatten.map (fun e => (e.1, "")) ∧
    ∀ u p, (u, p) ∈ (runPipeline homepages internal prog).master_pages →
      is_paginated_url u = false ∨ ∃ kv ∈ homepages, u = kv.2.url ++ "/" := by
  refine ⟨?_, rfl, ?_⟩
  · show ((((runPipeline homepages internal prog).locales.map
      (fun l => chunkUrls l.regular)).flatten.map (fun e => (e.1, ""))).length) = _
    rw [List.length_map, List.length_flatten, List.map_map]
    congr 1
    apply List.map_congr_left
    intro l hl
    show ((List.map ChunkOut.url_list l.regular).flatten).length =
      (List.map (fun c => c.url_list.length) l.regular).sum
    rw [List.length_flatten, List.map_map]
    rw [show (List.length ∘ ChunkOut.url_list) =
      (fun c : ChunkOut => c.url_list.length) from funext fun c => rfl]
  · intro u p hmem
    have hm : (u, p) ∈ ((runPipeline homepages internal prog).locales.map
        (fun l => chunkUrls l.regular)).flatten.map (fun e => (e.1, "")) := hmem
    rw [List.mem_map] at hm
    obtain ⟨e, he, heq⟩ := hm
    injection heq with h1 h2
    rw [List.mem_flatten] at he
    obtain ⟨L, hL, heL⟩ := he
    rw [List.mem_map] at hL
    obtain ⟨l, hl, rfl⟩ := hL
    have hl' : l ∈ (homepages.map
        (fun kv => processLocale internal kv.1 kv.2)).filterMap
        (fun r => match r with | .inl l => some l | .inr _ => none) := hl
    rw [List.mem_filterMap] at hl'
    obtain ⟨r, hr, hrl⟩ := hl' 
    rw [List.mem_map] at hr
    obtain ⟨kv, hkv, rfl⟩ := hr
    have hinl : processLocale internal kv.1 kv.2 = .inl l := by
      revert hrl
      cases processLocale internal kv.1 kv.2 with
      | inl l' =>
        intro hh
        rw [Option.some.injEq] at hh
        rw [hh]
      | inr s => intro hh; exact absurd hh (by simp)
    simp only [processLocale] at hinl
    split at hinl
    · exact absurd hinl (by simp)
    · rw [Sum.inl.injEq] at hinl
      subst hinl
      split at heL
      · rw [show chunkUrls [] = [] from rfl] at heL
        exact absurd heL (List.not_mem_nil e)
      · rcases regularLoopAux_urllist_mem kv.2.url _ 99 _ 1 e heL with h | ⟨p', hp', hk⟩
        · right
          exact ⟨kv, hkv, by rw [← h1, h]⟩
        · left
          have hf := (List.mem_filter.mp hp').2
          rw [Bool.not_eq_true'] at hf
          rw [← h1]
          exact hf

/-- C7 (counterexample): a registry whose homepage is itself a paginated
URL puts a paginated URL into the master sequence — refuting the claim that
the master sequence contains no paginated URLs. -/
theorem c7_counterexample :
    (runPipeline paginatedHomepageRegistry oneUrlBuckets
        ⟨"Starting", 0, none⟩).master_pages =
      [("http://x.com/Page-1/", ""), ("http://x.com/a", "")] ∧
    is_paginated_url "http://x.com/Page-1/" = true :=
  ⟨rfl, rfl⟩

/-- C7 witness: the amended disjunction at a concrete master entry. -/
theorem c7_amended_witness :
    is_paginated_url "http://x.com/a" = false ∨
    ∃ kv ∈ paginatedHomepageRegistry, "http://x.com/a" = kv.2.url ++ "/" :=
  (c7_amended paginatedHomepageRegistry oneUrlBuckets ⟨"Starting", 0, none⟩).2.2
    "http://x.com/a" "" (by decide)

end SitemapGen
